import Mathlib

/-!
Shallow embedding of the zabbix-media-watcher reconciliation core
(src/main.go).  Times and durations are modelled as `Int` nanoseconds
(Go `time.Time` / `time.Duration`); the remote HTTP calls are modelled
by explicit outcome parameters; the Go maps `MediaState` and
`GroupState` are modelled as association lists over `String` keys.
-/

/-- Association-list lookup, the model of a Go map read `state[id]`. -/
def mapLookup {α : Type} : List (String × α) → String → Option α
  | [], _ => none
  | (k, v) :: rest, id => if k = id then some v else mapLookup rest id

/-- Association-list key removal, the model of Go `delete(state, id)`. -/
def mapErase {α : Type} : List (String × α) → String → List (String × α)
  | [], _ => []
  | (k, v) :: rest, id =>
    if k = id then mapErase rest id else (k, v) :: mapErase rest id

/-- Association-list insert-or-replace, the model of a Go map write
`state[k] = v`. -/
def mapUpsert {α : Type} : List (String × α) → String → α → List (String × α)
  | [], k, v => [(k, v)]
  | (k', v') :: rest, k, v =>
    if k' = k then (k, v) :: rest else (k', v') :: mapUpsert rest k v

/-- The per-cycle channel record returned by mediatype.get
(src/main.go lines 39-43): status "1" means disabled. -/
structure MediaType where
  mediaTypeID : String
  name : String
  status : String
deriving DecidableEq

/-- MediaState (src/main.go line 45): channel id mapped to the time it
was first seen disabled. -/
abbrev MediaState := List (String × Int)

/-- The configuration fields the media engine reads (src/main.go
lines 21-29): the disable threshold `OffDuration` and whether
`MattermostWebhook` is non-empty. -/
structure Cfg where
  offDuration : Int
  mmWebhook : Bool

/-- 30 minutes in nanoseconds: the fixed reminder threshold of
`time.Since(firstSeen).Minutes() >= 30` (src/main.go line 245). -/
def thirtyMinutes : Int := 1800000000000

/-- The Mattermost notifications built by processMediaTypes, one
constructor per fmt.Sprintf template (src/main.go lines 211, 228, 237,
247, 258).  Each carries the semantic payload of the message text. -/
inductive Alert where
  /-- "Обнаружено отключенное медиа" with the remaining time until
  auto-enable (equal to offDuration at detection time). -/
  | detected (name : String) (remaining : Int)
  /-- "Ошибка включения медиа" carrying the enable error. -/
  | enableError (name : String) (err : String)
  /-- "Медиа ... было автоматически включено скриптом." -/
  | enabledAuto (name : String)
  /-- "Медиа отключено ... Автоматическое включение через ..." -/
  | reminder (name : String) (elapsed remaining : Int)
  /-- "Медиа восстановлено". -/
  | restored (name : String)
deriving DecidableEq

/-- Whether an alert is the repeat reminder of src/main.go line 247. -/
def Alert.isReminder : Alert → Bool
  | .reminder _ _ _ => true
  | _ => false

/-- Output of one iteration of the channel loop: the updated state, the
notifications sent, the mediatype.update calls attempted, and whether
`stateChanged` was set. -/
structure StepOut where
  state : MediaState
  alerts : List Alert
  enables : List String
  changed : Bool
deriving DecidableEq

/-- One iteration of the channel loop of processMediaTypes
(src/main.go lines 192-261).  `enableErr id = none` models
enableMediaType succeeding, `some e` models it returning error `e`.
`now` is `currentTime`; within one cycle `time.Since(firstSeen)` and
`currentTime.Sub(firstSeen)` coincide, and
`cfg.OffDuration - time.Since(currentTime)` at detection time is
`cfg.OffDuration`. -/
def processMedia (cfg : Cfg) (enableErr : String → Option String) (now : Int)
    (state : MediaState) (media : MediaType) : StepOut :=
  if media.status = "1" then
    match mapLookup state media.mediaTypeID with
    | none =>
      { state := (media.mediaTypeID, now) :: state
        alerts := if cfg.mmWebhook then [.detected media.name cfg.offDuration] else []
        enables := []
        changed := true }
    | some firstSeen =>
      let disabledDuration := now - firstSeen
      if cfg.offDuration ≤ disabledDuration then
        match enableErr media.mediaTypeID with
        | some e =>
          { state := state
            alerts := if cfg.mmWebhook then [.enableError media.name e] else []
            enables := [media.mediaTypeID]
            changed := false }
        | none =>
          { state := mapErase state media.mediaTypeID
            alerts := if cfg.mmWebhook then [.enabledAuto media.name] else []
            enables := [media.mediaTypeID]
            changed := true }
      else
        { state := state
          alerts :=
            if cfg.mmWebhook ∧ thirtyMinutes ≤ disabledDuration then
              [.reminder media.name disabledDuration (cfg.offDuration - disabledDuration)]
            else []
          enables := []
          changed := false }
  else
    match mapLookup state media.mediaTypeID with
    | some _ =>
      { state := mapErase state media.mediaTypeID
        alerts := if cfg.mmWebhook then [.restored media.name] else []
        enables := []
        changed := true }
    | none => { state := state, alerts := [], enables := [], changed := false }

/-- The full `for _, media := range mediaTypes` loop of
processMediaTypes, accumulating alerts, enable attempts and the
`stateChanged` flag. -/
def processMediaLoop (cfg : Cfg) (enableErr : String → Option String) (now : Int) :
    MediaState → List MediaType → StepOut
  | state, [] => { state := state, alerts := [], enables := [], changed := false }
  | state, m :: rest =>
    let r := processMedia cfg enableErr now state m
    let t := processMediaLoop cfg enableErr now r.state rest
    { state := t.state
      alerts := r.alerts ++ t.alerts
      enables := r.enables ++ t.enables
      changed := r.changed || t.changed }

/-- The three ways getMediaTypes (src/main.go lines 273-312) can turn
out: transport failure of http.Post, a JSON parse failure, or a parsed
response carrying a result list and a remote error code. -/
inductive FetchOutcome where
  | transportError
  | parseError
  | response (result : List MediaType) (errorCode : Int)

/-- getMediaTypes (src/main.go lines 273-312): any transport or parse
failure, or a non-zero remote error code, yields an error (`none`). -/
def getMediaTypes : FetchOutcome → Option (List MediaType)
  | .transportError => none
  | .parseError => none
  | .response result errorCode => if errorCode ≠ 0 then none else some result

/-- Result of one whole processMediaTypes cycle; `saved` records
whether saveState was invoked (src/main.go lines 266-270, called
exactly when `stateChanged`). -/
structure CycleOut where
  state : MediaState
  alerts : List Alert
  enables : List String
  stateChanged : Bool
  saved : Bool
deriving DecidableEq

/-- processMediaTypes (src/main.go lines 179-271): a fetch error or an
empty channel list aborts the cycle before any processing; otherwise
the channel loop runs and the state is persisted iff it changed. -/
def processMediaTypes (cfg : Cfg) (enableErr : String → Option String) (now : Int)
    (fetch : FetchOutcome) (state : MediaState) : CycleOut :=
  match getMediaTypes fetch with
  | none => { state := state, alerts := [], enables := [], stateChanged := false, saved := false }
  | some mediaTypes =>
    if mediaTypes.isEmpty then
      { state := state, alerts := [], enables := [], stateChanged := false, saved := false }
    else
      let r := processMediaLoop cfg enableErr now state mediaTypes
      { state := r.state, alerts := r.alerts, enables := r.enables
        stateChanged := r.changed, saved := r.changed }

/-- The media half of the main loop (src/main.go lines 103-116): each
cycle is given its wall-clock time and its fetch outcome, and the
in-memory state is threaded from one cycle to the next. -/
def runMediaCycles (cfg : Cfg) (enableErr : String → Option String) :
    MediaState → List (Int × FetchOutcome) → List CycleOut
  | _, [] => []
  | state, (now, f) :: rest =>
    let r := processMediaTypes cfg enableErr now f state
    r :: runMediaCycles cfg enableErr r.state rest

/-- UserGroup (src/main.go lines 47-51): getUserGroups stores the
member ids as a sorted sequence (sort.Strings, line 508). -/
structure UserGroup where
  id : String
  name : String
  users : List String
deriving DecidableEq

/-- GroupState (src/main.go line 52): group id mapped to the
last-observed UserGroup. -/
abbrev GroupState := List (String × UserGroup)

/-- stringSlicesEqual (src/main.go lines 542-552): length check, then
an element-wise comparison. -/
def stringSlicesEqual (a b : List String) : Bool :=
  if a.length ≠ b.length then false
  else (List.zip a b).all fun p => p.1 = p.2

/-- The change descriptions built by compareGroupStates, one
constructor per fmt.Sprintf template (src/main.go lines 520, 524, 529,
536). -/
inductive GroupChange where
  | added (name : String)
  | renamed (oldName newName : String)
  | membersChanged (name : String)
  | removed (name : String)
deriving DecidableEq

/-- The changes recorded per group id in the first loop of
compareGroupStates (src/main.go lines 518-532): a missing prior entry
yields "Добавлена группа"; otherwise a differing name yields
"Переименована группа" and a differing member sequence yields
"Изменён состав пользователей". -/
def groupEntryChanges (prev : GroupState) (id : String) (cur : UserGroup) :
    List GroupChange :=
  match mapLookup prev id with
  | none => [.added cur.name]
  | some p =>
    (if p.name ≠ cur.name then [.renamed p.name cur.name] else []) ++
    (if stringSlicesEqual p.users cur.users then [] else [.membersChanged cur.name])

/-- The first loop of compareGroupStates (src/main.go lines 518-532),
iterated over the current observation. -/
def addedRenamedChanges (prev : GroupState) :
    List (String × UserGroup) → List GroupChange
  | [] => []
  | kv :: rest => groupEntryChanges prev kv.1 kv.2 ++ addedRenamedChanges prev rest

/-- The second loop of compareGroupStates (src/main.go lines 534-538):
every prior id absent from the current observation yields
"Удалена группа". -/
def removedChanges (curr : GroupState) :
    List (String × UserGroup) → List GroupChange
  | [] => []
  | kv :: rest =>
    (if (mapLookup curr kv.1).isSome then [] else [GroupChange.removed kv.2.name]) ++
    removedChanges curr rest

/-- compareGroupStates (src/main.go lines 515-540). -/
def compareGroupStates (prev curr : GroupState) : List GroupChange :=
  addedRenamedChanges prev curr ++ removedChanges curr prev

/-- The baseline-branch prior update of processUserGroups
(src/main.go lines 426-428): `for k, v := range current { prev[k] = v }`. -/
def mergeInto (prev current : GroupState) : GroupState :=
  current.foldl (fun s kv => mapUpsert s kv.1 kv.2) prev

/-- The non-baseline prior rebuild of processUserGroups (src/main.go
lines 450-457): delete every key absent from current, then write every
current entry. -/
def replacePrev (prev current : GroupState) : GroupState :=
  let pruned := prev.filter fun kv => (mapLookup current kv.1).isSome
  current.foldl (fun s kv => mapUpsert s kv.1 kv.2) pruned

/-- Result of one processUserGroups cycle: the in-memory prior after
the call, the change descriptions emitted to the sinks, what
saveGroupState persisted (`none` when it was not called), and whether
the baseline branch ran. -/
structure GroupOut where
  prev : GroupState
  alerts : List GroupChange
  saved : Option GroupState
  baselineTaken : Bool
deriving DecidableEq

/-- processUserGroups (src/main.go lines 411-459): a fetch error
returns before the baseline check; the baseline branch persists the
observation, merges it into the prior and emits nothing; otherwise the
diff is emitted and, only when non-empty, the snapshot is persisted and
the prior rebuilt. -/
def processUserGroups (fetch : Option GroupState) (prev : GroupState)
    (baselineMode : Bool) : GroupOut :=
  match fetch with
  | none => { prev := prev, alerts := [], saved := none, baselineTaken := false }
  | some current =>
    if baselineMode then
      { prev := mergeInto prev current
        alerts := []
        saved := some current
        baselineTaken := true }
    else
      let changes := compareGroupStates prev current
      if changes.isEmpty then
        { prev := prev, alerts := [], saved := none, baselineTaken := false }
      else
        { prev := replacePrev prev current
          alerts := changes
          saved := some current
          baselineTaken := false }

/-- The group half of the main loop (src/main.go lines 103-116):
`baselineMode := !groupStateExisted` per cycle, and `groupStateExisted`
is set to true after the first cycle whether or not the fetch
succeeded. -/
def runGroupCycles : Bool → GroupState → List (Option GroupState) → List GroupOut
  | _, _, [] => []
  | existed, prev, f :: fs =>
    let baselineMode := !existed
    let out := processUserGroups f prev baselineMode
    let existed' := if baselineMode then true else existed
    out :: runGroupCycles existed' out.prev fs

/-! ## Association-list lemmas -/

theorem mapLookup_cons_self {α : Type} (s : List (String × α)) (k : String) (v : α) :
    mapLookup ((k, v) :: s) k = some v := by
  simp [mapLookup]

theorem mapLookup_cons_ne {α : Type} (s : List (String × α)) (k id : String) (v : α)
    (h : k ≠ id) : mapLookup ((k, v) :: s) id = mapLookup s id := by
  simp [mapLookup, h]

theorem mapLookup_erase_self {α : Type} (s : List (String × α)) (k : String) :
    mapLookup (mapErase s k) k = none := by
  induction s with
  | nil => rfl
  | cons kv rest ih =>
    obtain ⟨k', v'⟩ := kv
    by_cases h : k' = k
    · simpa [mapErase, h] using ih
    · simp [mapErase, h, mapLookup, ih]

theorem mapLookup_erase_ne {α : Type} (s : List (String × α)) (k id : String)
    (h : k ≠ id) : mapLookup (mapErase s k) id = mapLookup s id := by
  induction s with
  | nil => rfl
  | cons kv rest ih =>
    obtain ⟨k', v'⟩ := kv
    by_cases hk : k' = k
    · subst hk
      simp [mapErase, mapLookup, h, ih]
    · by_cases hid : k' = id
      · simp [mapErase, hk, mapLookup, hid, Ne.symm h]
      · simp [mapErase, hk, mapLookup, hid, ih]

theorem mapLookup_upsert_self {α : Type} (s : List (String × α)) (k : String) (v : α) :
    mapLookup (mapUpsert s k v) k = some v := by
  induction s with
  | nil => simp [mapUpsert, mapLookup]
  | cons kv rest ih =>
    obtain ⟨k', v'⟩ := kv
    by_cases h : k' = k
    · simp [mapUpsert, h, mapLookup]
    · simp [mapUpsert, h, mapLookup, ih]

theorem mapLookup_upsert_ne {α : Type} (s : List (String × α)) (k id : String) (v : α)
    (h : k ≠ id) : mapLookup (mapUpsert s k v) id = mapLookup s id := by
  induction s with
  | nil => simp [mapUpsert, mapLookup, h]
  | cons kv rest ih =>
    obtain ⟨k', v'⟩ := kv
    by_cases hk : k' = k
    · subst hk
      simp [mapUpsert, mapLookup, h]
    · by_cases hid : k' = id
      · simp [mapUpsert, hk, mapLookup, hid, Ne.symm h]
      · simp [mapUpsert, hk, mapLookup, hid, ih]

theorem mapLookup_mem {α : Type} {s : List (String × α)} {id : String} {v : α}
    (h : mapLookup s id = some v) : (id, v) ∈ s := by
  induction s with
  | nil => simp [mapLookup] at h
  | cons kv rest ih =>
    obtain ⟨k', v'⟩ := kv
    by_cases hk : k' = id
    · subst hk
      simp [mapLookup] at h
      simp [h]
    · simp [mapLookup, hk] at h
      exact List.mem_cons_of_mem _ (ih h)

theorem mapLookup_eq_none_of_not_mem {α : Type} {s : List (String × α)} {id : String}
    (h : id ∉ s.map Prod.fst) : mapLookup s id = none := by
  induction s with
  | nil => rfl
  | cons kv rest ih =>
    obtain ⟨k', v'⟩ := kv
    rw [List.map_cons] at h
    have h1 : ¬k' = id := by
      intro hk
      subst hk
      exact h (List.mem_cons_self _ _)
    have h2 : id ∉ rest.map Prod.fst := fun hm => h (List.mem_cons_of_mem _ hm)
    simp [mapLookup, h1, ih h2]

theorem mapLookup_isSome_of_mem {α : Type} {s : List (String × α)} {kv : String × α}
    (h : kv ∈ s) : (mapLookup s kv.1).isSome := by
  induction s with
  | nil => simp at h
  | cons kv' rest ih =>
    obtain ⟨k', v'⟩ := kv'
    rcases List.mem_cons.mp h with h | h
    · subst h
      simp [mapLookup]
    · by_cases hk : k' = kv.1
      · simp [mapLookup, hk]
      · simp [mapLookup, hk]
        exact ih h

/-- Lookup after folding `mapUpsert` over an association list with
distinct keys: entries of `l` win, and other keys fall through. -/
theorem mapLookup_foldl_upsert {α : Type} (l : List (String × α))
    (hnd : (l.map Prod.fst).Nodup) (s : List (String × α)) (id : String) :
    mapLookup (l.foldl (fun a kv => mapUpsert a kv.1 kv.2) s) id =
      (mapLookup l id).or (mapLookup s id) := by
  induction l generalizing s with
  | nil => simp [mapLookup, Option.none_or]
  | cons kv rest ih =>
    obtain ⟨k, v⟩ := kv
    simp only [List.map_cons, List.nodup_cons] at hnd
    simp only [List.foldl_cons]
    rw [ih hnd.2]
    by_cases hk : k = id
    · subst hk
      rw [mapLookup_eq_none_of_not_mem hnd.1]
      simp [mapLookup, mapLookup_upsert_self, Option.none_or]
    · rw [mapLookup_cons_ne _ _ _ _ hk]
      cases h : mapLookup rest id
      · simp [mapLookup_upsert_ne _ _ _ _ hk, Option.none_or]
      · simp

/-! ## Media engine lemmas -/

/-- A loop iteration never touches watch-state keys other than the
processed channel's id. -/
theorem processMedia_lookup_ne (cfg : Cfg) (e : String → Option String) (now : Int)
    (s : MediaState) (m : MediaType) (id : String) (h : m.mediaTypeID ≠ id) :
    mapLookup (processMedia cfg e now s m).state id = mapLookup s id := by
  unfold processMedia
  split
  · cases hl : mapLookup s m.mediaTypeID
    · simp [mapLookup_cons_ne _ _ _ _ h]
    · simp only []
      split
      · cases e m.mediaTypeID
      <;> simp [mapLookup_erase_ne _ _ _ h]
      · simp
  · cases hl : mapLookup s m.mediaTypeID
    · simp
    · simp [mapLookup_erase_ne _ _ _ h]

/-- What a loop iteration does to the watch-state entry of the
processed channel itself. -/
theorem processMedia_lookup_self (cfg : Cfg) (e : String → Option String) (now : Int)
    (s : MediaState) (m : MediaType) :
    mapLookup (processMedia cfg e now s m).state m.mediaTypeID =
      if m.status = "1" then
        match mapLookup s m.mediaTypeID with
        | none => some now
        | some t =>
          if cfg.offDuration ≤ now - t ∧ e m.mediaTypeID = none then none else some t
      else none := by
  unfold processMedia
  split
  · cases hl : mapLookup s m.mediaTypeID
    · simp [mapLookup_cons_self]
    · simp only []
      split
      · cases he : e m.mediaTypeID
        · simp_all [mapLookup_erase_self]
        · simp_all
      · rename_i hthr
        simp_all
  · cases hl : mapLookup s m.mediaTypeID
    · simp [hl]
    · simp [mapLookup_erase_self]

/-- The loop splits over list append, threading the state. -/
theorem processMediaLoop_state_append (cfg : Cfg) (e : String → Option String)
    (now : Int) (s : MediaState) (l₁ l₂ : List MediaType) :
    (processMediaLoop cfg e now s (l₁ ++ l₂)).state =
      (processMediaLoop cfg e now (processMediaLoop cfg e now s l₁).state l₂).state := by
  induction l₁ generalizing s with
  | nil => simp [processMediaLoop]
  | cons m rest ih => simp [processMediaLoop, ih]

/-- Keys of channels that never occur in the processed list keep their
watch-state entry across the whole loop. -/
theorem processMediaLoop_lookup_not_mem (cfg : Cfg) (e : String → Option String)
    (now : Int) (s : MediaState) (l : List MediaType) (id : String)
    (h : ∀ m ∈ l, m.mediaTypeID ≠ id) :
    mapLookup (processMediaLoop cfg e now s l).state id = mapLookup s id := by
  induction l generalizing s with
  | nil => rfl
  | cons m rest ih =>
    simp only [processMediaLoop]
    rw [ih _ fun m' hm' => h m' (List.mem_cons_of_mem _ hm')]
    exact processMedia_lookup_ne cfg e now s m id (h m (List.mem_cons_self _ _))

/-- Branch equation: channel disabled and not yet tracked
(src/main.go lines 202-214). -/
theorem processMedia_newDisabled (cfg : Cfg) (e : String → Option String) (now : Int)
    (s : MediaState) (m : MediaType) (hst : m.status = "1")
    (hl : mapLookup s m.mediaTypeID = none) :
    processMedia cfg e now s m =
      { state := (m.mediaTypeID, now) :: s
        alerts := if cfg.mmWebhook then [.detected m.name cfg.offDuration] else []
        enables := []
        changed := true } := by
  simp [processMedia, hst, hl]

/-- Branch equation: channel disabled, tracked, threshold not yet
reached (src/main.go lines 243-251). -/
theorem processMedia_notYetDue (cfg : Cfg) (e : String → Option String) (now : Int)
    (s : MediaState) (m : MediaType) (t : Int) (hst : m.status = "1")
    (hl : mapLookup s m.mediaTypeID = some t) (hlt : now - t < cfg.offDuration) :
    processMedia cfg e now s m =
      { state := s
        alerts :=
          if cfg.mmWebhook ∧ thirtyMinutes ≤ now - t then
            [.reminder m.name (now - t) (cfg.offDuration - (now - t))]
          else []
        enables := []
        changed := false } := by
  simp [processMedia, hst, hl, not_le.mpr hlt]

/-- Branch equation: threshold reached, enableMediaType fails
(src/main.go lines 224-230). -/
theorem processMedia_dueFail (cfg : Cfg) (e : String → Option String) (now : Int)
    (s : MediaState) (m : MediaType) (t : Int) (err : String) (hst : m.status = "1")
    (hl : mapLookup s m.mediaTypeID = some t) (hge : cfg.offDuration ≤ now - t)
    (he : e m.mediaTypeID = some err) :
    processMedia cfg e now s m =
      { state := s
        alerts := if cfg.mmWebhook then [.enableError m.name err] else []
        enables := [m.mediaTypeID]
        changed := false } := by
  simp [processMedia, hst, hl, hge, he]

/-- Branch equation: threshold reached, enableMediaType succeeds
(src/main.go lines 231-242). -/
theorem processMedia_dueSuccess (cfg : Cfg) (e : String → Option String) (now : Int)
    (s : MediaState) (m : MediaType) (t : Int) (hst : m.status = "1")
    (hl : mapLookup s m.mediaTypeID = some t) (hge : cfg.offDuration ≤ now - t)
    (he : e m.mediaTypeID = none) :
    processMedia cfg e now s m =
      { state := mapErase s m.mediaTypeID
        alerts := if cfg.mmWebhook then [.enabledAuto m.name] else []
        enables := [m.mediaTypeID]
        changed := true } := by
  simp [processMedia, hst, hl, hge, he]

/-- Branch equation: channel enabled while tracked (src/main.go lines
253-261). -/
theorem processMedia_enabledTracked (cfg : Cfg) (e : String → Option String) (now : Int)
    (s : MediaState) (m : MediaType) (t : Int) (hst : ¬m.status = "1")
    (hl : mapLookup s m.mediaTypeID = some t) :
    processMedia cfg e now s m =
      { state := mapErase s m.mediaTypeID
        alerts := if cfg.mmWebhook then [.restored m.name] else []
        enables := []
        changed := true } := by
  simp [processMedia, hst, hl]

/-- Branch equation: channel enabled and untracked (no action). -/
theorem processMedia_enabledUntracked (cfg : Cfg) (e : String → Option String) (now : Int)
    (s : MediaState) (m : MediaType) (hst : ¬m.status = "1")
    (hl : mapLookup s m.mediaTypeID = none) :
    processMedia cfg e now s m = { state := s, alerts := [], enables := [], changed := false } := by
  simp [processMedia, hst, hl]

/-- In a cycle whose every listed channel is either disabled with a
tracked entry still under the threshold, or enabled and untracked, the
loop is a no-op up to reminder alerts. -/
theorem processMediaLoop_steady (cfg : Cfg) (e : String → Option String) (now : Int)
    (s : MediaState) (l : List MediaType)
    (h : ∀ m ∈ l,
      (m.status = "1" → ∃ t, mapLookup s m.mediaTypeID = some t ∧ now - t < cfg.offDuration) ∧
      (¬m.status = "1" → mapLookup s m.mediaTypeID = none)) :
    (processMediaLoop cfg e now s l).state = s ∧
    (processMediaLoop cfg e now s l).enables = [] ∧
    (processMediaLoop cfg e now s l).changed = false ∧
    ∀ a ∈ (processMediaLoop cfg e now s l).alerts, a.isReminder = true := by
  induction l with
  | nil => simp [processMediaLoop]
  | cons m rest ih =>
    have hm := h m (List.mem_cons_self _ _)
    have ihr := ih fun m' hm' => h m' (List.mem_cons_of_mem _ hm')
    by_cases hst : m.status = "1"
    · obtain ⟨t, hl, hlt⟩ := hm.1 hst
      simp only [processMediaLoop, processMedia_notYetDue cfg e now s m t hst hl hlt]
      refine ⟨ihr.1, by simp [ihr.2.1], by simp [ihr.2.2.1], ?_⟩
      intro a ha
      simp only [List.mem_append] at ha
      rcases ha with ha | ha
      · by_cases hw : (cfg.mmWebhook : Prop) ∧ thirtyMinutes ≤ now - t
        · rw [if_pos hw] at ha
          simp at ha
          simp [ha, Alert.isReminder]
        · rw [if_neg hw] at ha
          simp at ha
      · exact ihr.2.2.2 a ha
    · have hl := hm.2 hst
      simp only [processMediaLoop, processMedia_enabledUntracked cfg e now s m hst hl]
      refine ⟨ihr.1, by simp [ihr.2.1], by simp [ihr.2.2.1], ?_⟩
      intro a ha
      simp only [List.nil_append] at ha
      exact ihr.2.2.2 a ha

/-- The state, enable-call and dirty-flag components of a loop
iteration do not depend on whether the webhook is configured. -/
theorem processMedia_webhook_indep (off : Int) (w₁ w₂ : Bool)
    (e : String → Option String) (now : Int) (s : MediaState) (m : MediaType) :
    (processMedia ⟨off, w₁⟩ e now s m).state = (processMedia ⟨off, w₂⟩ e now s m).state ∧
    (processMedia ⟨off, w₁⟩ e now s m).enables = (processMedia ⟨off, w₂⟩ e now s m).enables ∧
    (processMedia ⟨off, w₁⟩ e now s m).changed = (processMedia ⟨off, w₂⟩ e now s m).changed := by
  unfold processMedia
  split
  · cases mapLookup s m.mediaTypeID
    · exact ⟨rfl, rfl, rfl⟩
    · simp only []
      split
      · cases e m.mediaTypeID
      <;> exact ⟨rfl, rfl, rfl⟩
      · exact ⟨rfl, rfl, rfl⟩
  · cases mapLookup s m.mediaTypeID
    · exact ⟨rfl, rfl, rfl⟩
    · exact ⟨rfl, rfl, rfl⟩

/-- A zero error code makes getMediaTypes return its result list. -/
theorem getMediaTypes_ok (l : List MediaType) : getMediaTypes (.response l 0) = some l := by
  simp [getMediaTypes]

/-- A cycle over a one-channel list is the single loop iteration, with
persistence iff that iteration changed the state. -/
theorem processMediaTypes_single (cfg : Cfg) (e : String → Option String) (now : Int)
    (m : MediaType) (s : MediaState) :
    processMediaTypes cfg e now (.response [m] 0) s =
      { state := (processMedia cfg e now s m).state
        alerts := (processMedia cfg e now s m).alerts
        enables := (processMedia cfg e now s m).enables
        stateChanged := (processMedia cfg e now s m).changed
        saved := (processMedia cfg e now s m).changed } := by
  simp [processMediaTypes, getMediaTypes, processMediaLoop]

/-- The loop state/enables/changed components are webhook-independent. -/
theorem processMediaLoop_webhook_indep (off : Int) (w₁ w₂ : Bool)
    (e : String → Option String) (now : Int) (s : MediaState) (l : List MediaType) :
    (processMediaLoop ⟨off, w₁⟩ e now s l).state = (processMediaLoop ⟨off, w₂⟩ e now s l).state ∧
    (processMediaLoop ⟨off, w₁⟩ e now s l).enables = (processMediaLoop ⟨off, w₂⟩ e now s l).enables ∧
    (processMediaLoop ⟨off, w₁⟩ e now s l).changed = (processMediaLoop ⟨off, w₂⟩ e now s l).changed := by
  induction l generalizing s with
  | nil => exact ⟨rfl, rfl, rfl⟩
  | cons m rest ih =>
    obtain ⟨hs, he, hc⟩ := processMedia_webhook_indep off w₁ w₂ e now s m
    simp only [processMediaLoop]
    rw [hs]
    obtain ⟨hs', he', hc'⟩ := ih ((processMedia ⟨off, w₂⟩ e now s m).state)
    exact ⟨hs', by rw [he, he'], by rw [hc, hc']⟩

/-- C7: if obtaining the channel list fails (transport error, parse
error, or a non-zero remote error code), the whole media cycle aborts:
the watch-state is returned unmutated, no alert is emitted, no enable
call is attempted, and nothing is persisted; the function returns
normally, so the next scheduled cycle is the retry. -/
theorem media_fetch_failure_aborts_cycle (cfg : Cfg) (e : String → Option String)
    (now : Int) (fetch : FetchOutcome) (s : MediaState)
    (h : getMediaTypes fetch = none) :
    processMediaTypes cfg e now fetch s =
      { state := s, alerts := [], enables := [], stateChanged := false, saved := false } := by
  simp [processMediaTypes, h]

theorem media_fetch_failure_aborts_cycle_witness :
    processMediaTypes ⟨60, true⟩ (fun _ => none) 99
        (.response [⟨"7", "Email", "1"⟩] 5) [("7", 0)] =
      { state := [("7", 0)], alerts := [], enables := [], stateChanged := false
        saved := false } :=
  media_fetch_failure_aborts_cycle ⟨60, true⟩ (fun _ => none) 99
    (.response [⟨"7", "Email", "1"⟩] 5) [("7", 0)] (by decide)

/-- C10: a media cycle never removes or modifies a watch-state entry
whose channel id does not occur in the fetched channel list (including
the empty-list short-circuit): its lookup is unchanged after the
cycle. -/
theorem media_absent_channel_entry_preserved (cfg : Cfg) (e : String → Option String)
    (now : Int) (fetch : FetchOutcome) (s : MediaState) (id : String)
    (h : ∀ m ∈ (getMediaTypes fetch).getD [], m.mediaTypeID ≠ id) :
    mapLookup (processMediaTypes cfg e now fetch s).state id = mapLookup s id := by
  unfold processMediaTypes
  cases hf : getMediaTypes fetch with
  | none => rfl
  | some l =>
    rw [hf] at h
    simp only [Option.getD_some] at h
    by_cases hl : l.isEmpty
    · simp [hl]
    · simp only [hl, Bool.false_eq_true, if_neg, not_false_iff]
      exact processMediaLoop_lookup_not_mem cfg e now s l id h

theorem media_absent_channel_entry_preserved_witness :
    mapLookup (processMediaTypes ⟨60, true⟩ (fun _ => none) 99
        (.response [⟨"8", "SMS", "1"⟩] 0) [("7", 3)]).state "7" =
      mapLookup [("7", 3)] "7" :=
  media_absent_channel_entry_preserved ⟨60, true⟩ (fun _ => none) 99
    (.response [⟨"8", "SMS", "1"⟩] 0) [("7", 3)] "7" (by decide)

/-- C9: the watch-state evolution, the enable calls and the
persistence decision of a media cycle are identical whether or not the
Mattermost webhook is configured; the flag can only change which
notifications are sent. -/
theorem media_webhook_noninterference (off : Int) (w₁ w₂ : Bool)
    (e : String → Option String) (now : Int) (fetch : FetchOutcome) (s : MediaState) :
    (processMediaTypes ⟨off, w₁⟩ e now fetch s).state =
      (processMediaTypes ⟨off, w₂⟩ e now fetch s).state ∧
    (processMediaTypes ⟨off, w₁⟩ e now fetch s).enables =
      (processMediaTypes ⟨off, w₂⟩ e now fetch s).enables ∧
    (processMediaTypes ⟨off, w₁⟩ e now fetch s).stateChanged =
      (processMediaTypes ⟨off, w₂⟩ e now fetch s).stateChanged ∧
    (processMediaTypes ⟨off, w₁⟩ e now fetch s).saved =
      (processMediaTypes ⟨off, w₂⟩ e now fetch s).saved := by
  unfold processMediaTypes
  cases hf : getMediaTypes fetch with
  | none => exact ⟨rfl, rfl, rfl, rfl⟩
  | some l =>
    by_cases hl : l.isEmpty
    · simp [hl]
    · simp only [hl, Bool.false_eq_true, if_neg, not_false_iff]
      obtain ⟨hs, he, hc⟩ := processMediaLoop_webhook_indep off w₁ w₂ e now s l
      exact ⟨hs, he, hc, hc⟩

/-- C3: on any cycle where the single listed channel is disabled, is
tracked since `t`, and `now - t` is at least 30 minutes but below
offDuration, and the webhook is configured, the cycle emits exactly the
reminder alert carrying the elapsed and remaining time, and leaves the
watch-state unchanged — so the same reminder fires again on every
further such cycle, with no deduplication. -/
theorem media_reminder_every_cycle_past_thirty (cfg : Cfg) (e : String → Option String)
    (now : Int) (id name : String) (t : Int) (s : MediaState)
    (hw : cfg.mmWebhook = true) (ht : mapLookup s id = some t)
    (h30 : thirtyMinutes ≤ now - t) (hlt : now - t < cfg.offDuration) :
    processMediaTypes cfg e now (.response [⟨id, name, "1"⟩] 0) s =
      { state := s
        alerts := [.reminder name (now - t) (cfg.offDuration - (now - t))]
        enables := []
        stateChanged := false
        saved := false } := by
  rw [processMediaTypes_single, processMedia_notYetDue cfg e now s ⟨id, name, "1"⟩ t rfl ht hlt]
  have hw' : (cfg.mmWebhook : Prop) ∧ thirtyMinutes ≤ now - t := ⟨by simp [hw], h30⟩
  simp [if_pos hw']

theorem media_reminder_every_cycle_past_thirty_witness :
    processMediaTypes ⟨3600000000000, true⟩ (fun _ => none) 1800000000000
        (.response [⟨"7", "Email", "1"⟩] 0) [("7", 0)] =
      { state := [("7", 0)]
        alerts := [.reminder "Email" (1800000000000 - 0) (3600000000000 - (1800000000000 - 0))]
        enables := []
        stateChanged := false
        saved := false } :=
  media_reminder_every_cycle_past_thirty ⟨3600000000000, true⟩ (fun _ => none)
    1800000000000 "7" "Email" 0 [("7", 0)] rfl (by decide) (by decide) (by decide)

/-- C6: when the remote enable call for a tracked over-threshold
channel fails, the watch-state is returned unchanged (the entry with
its original firstSeenDisabledAt stays, so the next cycle retries), the
attempt is recorded, nothing is persisted, and with the webhook
configured a remediation-failed alert carrying the error is emitted. -/
theorem media_remediation_failure_keeps_state (cfg : Cfg) (e : String → Option String)
    (now : Int) (id name : String) (t : Int) (err : String) (s : MediaState)
    (hw : cfg.mmWebhook = true) (ht : mapLookup s id = some t)
    (hge : cfg.offDuration ≤ now - t) (he : e id = some err) :
    processMediaTypes cfg e now (.response [⟨id, name, "1"⟩] 0) s =
      { state := s
        alerts := [.enableError name err]
        enables := [id]
        stateChanged := false
        saved := false } := by
  rw [processMediaTypes_single, processMedia_dueFail cfg e now s ⟨id, name, "1"⟩ t err rfl ht hge he]
  simp [hw]

theorem media_remediation_failure_keeps_state_witness :
    processMediaTypes ⟨3600000000000, true⟩ (fun _ => some "api down") 4000000000000
        (.response [⟨"7", "Email", "1"⟩] 0) [("7", 0)] =
      { state := [("7", 0)]
        alerts := [.enableError "Email" "api down"]
        enables := ["7"]
        stateChanged := false
        saved := false } :=
  media_remediation_failure_keeps_state ⟨3600000000000, true⟩ (fun _ => some "api down")
    4000000000000 "7" "Email" 0 "api down" [("7", 0)] rfl (by decide) (by decide) rfl

/-- Whole-cycle equation: single channel, disabled, not yet tracked. -/
theorem processMediaTypes_single_newDisabled (cfg : Cfg) (e : String → Option String)
    (now : Int) (id name : String) (s : MediaState) (h : mapLookup s id = none) :
    processMediaTypes cfg e now (.response [⟨id, name, "1"⟩] 0) s =
      { state := (id, now) :: s
        alerts := if cfg.mmWebhook then [.detected name cfg.offDuration] else []
        enables := []
        stateChanged := true
        saved := true } := by
  rw [processMediaTypes_single, processMedia_newDisabled cfg e now s ⟨id, name, "1"⟩ rfl h]

/-- Whole-cycle equation: single channel, disabled, tracked, threshold
not reached. -/
theorem processMediaTypes_single_notYetDue (cfg : Cfg) (e : String → Option String)
    (now : Int) (id name : String) (t : Int) (s : MediaState)
    (h : mapLookup s id = some t) (hlt : now - t < cfg.offDuration) :
    processMediaTypes cfg e now (.response [⟨id, name, "1"⟩] 0) s =
      { state := s
        alerts :=
          if cfg.mmWebhook ∧ thirtyMinutes ≤ now - t then
            [.reminder name (now - t) (cfg.offDuration - (now - t))]
          else []
        enables := []
        stateChanged := false
        saved := false } := by
  rw [processMediaTypes_single, processMedia_notYetDue cfg e now s ⟨id, name, "1"⟩ t rfl h hlt]

/-- Whole-cycle equation: single channel, disabled, tracked, threshold
reached, enable call succeeding. -/
theorem processMediaTypes_single_dueSuccess (cfg : Cfg) (e : String → Option String)
    (now : Int) (id name : String) (t : Int) (s : MediaState)
    (h : mapLookup s id = some t) (hge : cfg.offDuration ≤ now - t)
    (hok : e id = none) :
    processMediaTypes cfg e now (.response [⟨id, name, "1"⟩] 0) s =
      { state := mapErase s id
        alerts := if cfg.mmWebhook then [.enabledAuto name] else []
        enables := [id]
        stateChanged := true
        saved := true } := by
  rw [processMediaTypes_single, processMedia_dueSuccess cfg e now s ⟨id, name, "1"⟩ t rfl h hge hok]

/-- Cycles observing a tracked disabled channel strictly under the
threshold leave the state untouched and attempt no enable call, for as
long as the stretch lasts. -/
theorem runMediaCycles_underThreshold (cfg : Cfg) (e : String → Option String)
    (id name : String) (s : MediaState) (T : Int) (mid : List Int)
    (rest : List (Int × FetchOutcome))
    (hT : mapLookup s id = some T)
    (hmid : ∀ t ∈ mid, t - T < cfg.offDuration) :
    (runMediaCycles cfg e s
        ((mid.map fun t => (t, FetchOutcome.response [⟨id, name, "1"⟩] 0)) ++ rest)).map
        (·.enables) =
      List.replicate mid.length [] ++ (runMediaCycles cfg e s rest).map (·.enables) := by
  induction mid with
  | nil => simp
  | cons t ts ih =>
    simp only [List.map_cons, List.cons_append, runMediaCycles,
      processMediaTypes_single_notYetDue cfg e t id name T s hT
        (hmid t (List.mem_cons_self _ _))]
    simp only [List.append_eq]
    rw [ih fun t' ht' => hmid t' (List.mem_cons_of_mem _ ht')]
    simp [List.replicate_succ]

/-- C2: a channel first observed disabled at time T, under a trace
whose intermediate cycles all happen before T + offDuration and whose
final cycle happens at-or-after it, with the remote enable succeeding:
no cycle before the threshold attempts an enable call, and the
threshold cycle attempts exactly one. -/
theorem media_remediation_exactly_once_at_threshold (cfg : Cfg)
    (e : String → Option String) (id name : String) (T : Int) (mid : List Int)
    (tn : Int) (s₀ : MediaState)
    (h₀ : mapLookup s₀ id = none)
    (hmid : ∀ t ∈ mid, t - T < cfg.offDuration)
    (hn : cfg.offDuration ≤ tn - T)
    (hok : e id = none) :
    (runMediaCycles cfg e s₀
        ((T :: (mid ++ [tn])).map fun t => (t, FetchOutcome.response [⟨id, name, "1"⟩] 0))).map
        (·.enables) =
      List.replicate (mid.length + 1) [] ++ [[id]] := by
  have hTs : mapLookup ((id, T) :: s₀) id = some T := mapLookup_cons_self s₀ id T
  simp only [List.map_cons, List.map_append, List.map_nil, runMediaCycles,
    processMediaTypes_single_newDisabled cfg e T id name s₀ h₀]
  rw [runMediaCycles_underThreshold cfg e id name ((id, T) :: s₀) T mid
    [(tn, FetchOutcome.response [⟨id, name, "1"⟩] 0)] hTs hmid]
  simp only [runMediaCycles,
    processMediaTypes_single_dueSuccess cfg e tn id name T ((id, T) :: s₀) hTs hn hok]
  simp [List.replicate_succ]

theorem media_remediation_exactly_once_at_threshold_witness :
    (runMediaCycles ⟨3600000000000, true⟩ (fun _ => none) []
        ((((0 : Int) :: ([600000000000, 1200000000000] ++ [3660000000000])).map fun t =>
          (t, FetchOutcome.response [⟨"7", "Email", "1"⟩] 0)))).map
        (·.enables) = List.replicate (2 + 1) [] ++ [["7"]] :=
  media_remediation_exactly_once_at_threshold ⟨3600000000000, true⟩
    (fun _ => none) "7" "Email" 0 [600000000000, 1200000000000] 3660000000000 []
    rfl (by decide) (by decide) rfl

/-- Per-key characterization of one whole loop over a list with
distinct channel ids: the entry of a listed channel after the loop is
determined by its status, its prior entry and the enable outcome. -/
theorem processMediaLoop_lookup_self (cfg : Cfg) (e : String → Option String)
    (now : Int) (s : MediaState) (l : List MediaType) (m : MediaType) (hm : m ∈ l)
    (hnd : (l.map (·.mediaTypeID)).Nodup) :
    mapLookup (processMediaLoop cfg e now s l).state m.mediaTypeID =
      if m.status = "1" then
        match mapLookup s m.mediaTypeID with
        | none => some now
        | some t =>
          if cfg.offDuration ≤ now - t ∧ e m.mediaTypeID = none then none else some t
      else none := by
  obtain ⟨l₁, l₂, rfl⟩ := List.append_of_mem hm
  rw [List.map_append, List.map_cons, List.nodup_append] at hnd
  obtain ⟨hnd₁, hnd₂, hdisj⟩ := hnd
  have h₂ : m.mediaTypeID ∉ l₂.map (·.mediaTypeID) := (List.nodup_cons.mp hnd₂).1
  have h₁ : m.mediaTypeID ∉ l₁.map (·.mediaTypeID) := by
    intro hin
    exact hdisj hin (List.mem_cons_self _ _)
  rw [processMediaLoop_state_append]
  simp only [processMediaLoop]
  rw [processMediaLoop_lookup_not_mem cfg e now _ l₂ m.mediaTypeID
    (fun m' hm' heq => h₂ (heq ▸ List.mem_map_of_mem _ hm'))]
  rw [processMedia_lookup_self]
  rw [processMediaLoop_lookup_not_mem cfg e now s l₁ m.mediaTypeID
    (fun m' hm' heq => h₁ (heq ▸ List.mem_map_of_mem _ hm'))]

/-- C8 counterexample: with state tracking channel "7" since time 0,
offDuration 60 and the cycle time 100, the first run remediates and
deletes the entry; a second run on the very same channel list and time
re-adds the entry, emits a detection alert and mutates the state — so
the second run is not a no-op. -/
theorem media_cycle_not_idempotent_after_remediation :
    (processMediaTypes ⟨60, true⟩ (fun _ => none) 100
        (.response [⟨"7", "Email", "1"⟩] 0)
        (processMediaTypes ⟨60, true⟩ (fun _ => none) 100
          (.response [⟨"7", "Email", "1"⟩] 0) [("7", 0)]).state).state ≠
      (processMediaTypes ⟨60, true⟩ (fun _ => none) 100
        (.response [⟨"7", "Email", "1"⟩] 0) [("7", 0)]).state ∧
    (processMediaTypes ⟨60, true⟩ (fun _ => none) 100
        (.response [⟨"7", "Email", "1"⟩] 0)
        (processMediaTypes ⟨60, true⟩ (fun _ => none) 100
          (.response [⟨"7", "Email", "1"⟩] 0) [("7", 0)]).state).alerts =
      [.detected "Email" 60] ∧
    (processMediaTypes ⟨60, true⟩ (fun _ => none) 100
        (.response [⟨"7", "Email", "1"⟩] 0)
        (processMediaTypes ⟨60, true⟩ (fun _ => none) 100
          (.response [⟨"7", "Email", "1"⟩] 0) [("7", 0)]).state).stateChanged = true := by
  decide

/-- C8 amended: if the listed channel ids are distinct, offDuration is
positive, and no tracked disabled channel has yet reached the threshold
at the cycle time (so the first run performs no remediation attempt),
then an immediately repeated cycle on the same list and time performs
no state mutation, no enable call and no persistence, and emits no
alerts other than reminder alerts (which repeat by design). -/
theorem media_second_cycle_noop (cfg : Cfg) (e : String → Option String) (now : Int)
    (l : List MediaType) (s : MediaState)
    (hnd : (l.map (·.mediaTypeID)).Nodup)
    (hoff : 0 < cfg.offDuration)
    (hno : ∀ m ∈ l, m.status = "1" →
      ∀ t, mapLookup s m.mediaTypeID = some t → now - t < cfg.offDuration) :
    (processMediaTypes cfg e now (.response l 0)
        (processMediaTypes cfg e now (.response l 0) s).state).state =
      (processMediaTypes cfg e now (.response l 0) s).state ∧
    (processMediaTypes cfg e now (.response l 0)
        (processMediaTypes cfg e now (.response l 0) s).state).enables = [] ∧
    (processMediaTypes cfg e now (.response l 0)
        (processMediaTypes cfg e now (.response l 0) s).state).stateChanged = false ∧
    (processMediaTypes cfg e now (.response l 0)
        (processMediaTypes cfg e now (.response l 0) s).state).saved = false ∧
    ∀ a ∈ (processMediaTypes cfg e now (.response l 0)
        (processMediaTypes cfg e now (.response l 0) s).state).alerts,
      a.isReminder = true := by
  rcases l with _ | ⟨m₀, lrest⟩
  · exact ⟨rfl, rfl, rfl, rfl, by intro a ha; simp [processMediaTypes, getMediaTypes] at ha⟩
  · set l := m₀ :: lrest with hl
    have hne : l.isEmpty = false := rfl
    have hr₁ : (processMediaTypes cfg e now (.response l 0) s).state =
        (processMediaLoop cfg e now s l).state := by
      simp [processMediaTypes, getMediaTypes, hne]
    have hsteady : ∀ m ∈ l,
        (m.status = "1" → ∃ t,
          mapLookup (processMediaLoop cfg e now s l).state m.mediaTypeID = some t ∧
            now - t < cfg.offDuration) ∧
        (¬m.status = "1" →
          mapLookup (processMediaLoop cfg e now s l).state m.mediaTypeID = none) := by
      intro m hm
      have hkey := processMediaLoop_lookup_self cfg e now s l m hm hnd
      constructor
      · intro hst
        rw [if_pos hst] at hkey
        cases hls : mapLookup s m.mediaTypeID with
        | none =>
          simp only [hls] at hkey
          exact ⟨now, hkey, by simpa using hoff⟩
        | some t =>
          simp only [hls] at hkey
          have hlt := hno m hm hst t hls
          rw [if_neg (fun hc => absurd hc.1 (not_le.mpr hlt))] at hkey
          exact ⟨t, hkey, hlt⟩
      · intro hst
        rwa [if_neg hst] at hkey
    obtain ⟨hst2, hen2, hch2, hal2⟩ :=
      processMediaLoop_steady cfg e now ((processMediaLoop cfg e now s l).state) l hsteady
    have hr₂ : processMediaTypes cfg e now (.response l 0)
        (processMediaTypes cfg e now (.response l 0) s).state =
        { state := (processMediaLoop cfg e now
              ((processMediaLoop cfg e now s l).state) l).state
          alerts := (processMediaLoop cfg e now
              ((processMediaLoop cfg e now s l).state) l).alerts
          enables := (processMediaLoop cfg e now
              ((processMediaLoop cfg e now s l).state) l).enables
          stateChanged := (processMediaLoop cfg e now
              ((processMediaLoop cfg e now s l).state) l).changed
          saved := (processMediaLoop cfg e now
              ((processMediaLoop cfg e now s l).state) l).changed } := by
      rw [hr₁]
      simp [processMediaTypes, getMediaTypes, hne]
    rw [hr₂, hr₁]
    exact ⟨hst2, hen2, hch2, hch2, hal2⟩

theorem media_second_cycle_noop_witness :
    (processMediaTypes ⟨60, true⟩ (fun _ => none) 10
        (.response [⟨"7", "Email", "1"⟩] 0)
        (processMediaTypes ⟨60, true⟩ (fun _ => none) 10
          (.response [⟨"7", "Email", "1"⟩] 0) []).state).state =
      (processMediaTypes ⟨60, true⟩ (fun _ => none) 10
        (.response [⟨"7", "Email", "1"⟩] 0) []).state ∧
    (processMediaTypes ⟨60, true⟩ (fun _ => none) 10
        (.response [⟨"7", "Email", "1"⟩] 0)
        (processMediaTypes ⟨60, true⟩ (fun _ => none) 10
          (.response [⟨"7", "Email", "1"⟩] 0) []).state).enables = [] ∧
    (processMediaTypes ⟨60, true⟩ (fun _ => none) 10
        (.response [⟨"7", "Email", "1"⟩] 0)
        (processMediaTypes ⟨60, true⟩ (fun _ => none) 10
          (.response [⟨"7", "Email", "1"⟩] 0) []).state).stateChanged = false :=
  ⟨(media_second_cycle_noop ⟨60, true⟩ (fun _ => none) 10 [⟨"7", "Email", "1"⟩] []
      (by decide) (by decide)
      (by intro m hm hst t ht; simp [mapLookup] at ht)).1,
   (media_second_cycle_noop ⟨60, true⟩ (fun _ => none) 10 [⟨"7", "Email", "1"⟩] []
      (by decide) (by decide)
      (by intro m hm hst t ht; simp [mapLookup] at ht)).2.1,
   (media_second_cycle_noop ⟨60, true⟩ (fun _ => none) 10 [⟨"7", "Email", "1"⟩] []
      (by decide) (by decide)
      (by intro m hm hst t ht; simp [mapLookup] at ht)).2.2.1⟩

/-! ## Group drift detector lemmas -/

/-- Lookup through the baseline merge of the prior with the current
observation (current entries win). -/
theorem mergeInto_lookup (prev cur : GroupState)
    (hc : (cur.map Prod.fst).Nodup) (id : String) :
    mapLookup (mergeInto prev cur) id =
      (mapLookup cur id).or (mapLookup prev id) := by
  unfold mergeInto
  exact mapLookup_foldl_upsert cur hc prev id

/-- A non-baseline cycle never reports having taken the baseline
branch. -/
theorem processUserGroups_not_baseline (f : Option GroupState) (p : GroupState) :
    (processUserGroups f p false).baselineTaken = false := by
  cases f with
  | none => rfl
  | some c =>
    simp only [processUserGroups, Bool.false_eq_true, if_false]
    split <;> rfl

/-- Once `groupStateExisted` is true, no later cycle ever takes the
baseline branch. -/
theorem runGroupCycles_no_baseline_after (p : GroupState)
    (fs : List (Option GroupState)) :
    ∀ o ∈ runGroupCycles true p fs, o.baselineTaken = false := by
  induction fs generalizing p with
  | nil => intro o ho; simp [runGroupCycles] at ho
  | cons f rest ih =>
    intro o ho
    simp only [runGroupCycles] at ho
    rcases List.mem_cons.mp ho with h | h
    · subst h
      exact processUserGroups_not_baseline f p
    · exact ih _ o h

/-- C1 counterexample: starting with no snapshot file, a first cycle
whose group fetch fails followed by a second cycle whose fetch succeeds
on one group: the second cycle — the first with a successful fetch —
does not take the baseline branch and emits a "group added" alert, so
the baseline path is skipped forever and the first successful
observation does generate alerts. -/
theorem groupBaseline_skipped_after_failed_first_fetch :
    (runGroupCycles false [] [none, some [("1", ⟨"1", "G", []⟩)]]).map
        (fun o => (o.baselineTaken, o.alerts)) =
      [(false, []), (false, [.added "G"])] := by
  decide

/-- C1 amended: for a process started without a snapshot, if the FIRST
cycle's group fetch succeeds then that cycle takes the baseline branch:
it persists the observation verbatim, emits no alerts, and leaves the
in-memory prior looking up exactly like the observation; and no later
cycle of the process ever takes the baseline branch again. -/
theorem groupBaseline_first_cycle_success (cur : GroupState)
    (rest : List (Option GroupState)) (hc : (cur.map Prod.fst).Nodup) :
    runGroupCycles false [] (some cur :: rest) =
      processUserGroups (some cur) [] true ::
        runGroupCycles true (processUserGroups (some cur) [] true).prev rest ∧
    (processUserGroups (some cur) [] true).alerts = [] ∧
    (processUserGroups (some cur) [] true).saved = some cur ∧
    (processUserGroups (some cur) [] true).baselineTaken = true ∧
    (∀ id, mapLookup (processUserGroups (some cur) [] true).prev id = mapLookup cur id) ∧
    ∀ o ∈ runGroupCycles true (processUserGroups (some cur) [] true).prev rest,
      o.baselineTaken = false := by
  refine ⟨rfl, rfl, rfl, rfl, ?_, runGroupCycles_no_baseline_after _ rest⟩
  intro id
  have h := mergeInto_lookup [] cur hc id
  simp only [processUserGroups, if_pos]
  rw [h]
  cases hcur : mapLookup cur id with
  | none => simp [mapLookup, Option.none_or]
  | some v => simp

theorem groupBaseline_first_cycle_success_witness :
    (processUserGroups (some [("1", UserGroup.mk "1" "G" [])]) [] true).alerts = [] ∧
    (processUserGroups (some [("1", UserGroup.mk "1" "G" [])]) [] true).saved =
      some [("1", UserGroup.mk "1" "G" [])] ∧
    (processUserGroups (some [("1", UserGroup.mk "1" "G" [])]) [] true).baselineTaken = true ∧
    mapLookup (processUserGroups (some [("1", UserGroup.mk "1" "G" [])]) [] true).prev "1" =
      mapLookup [("1", UserGroup.mk "1" "G" [])] "1" :=
  ⟨(groupBaseline_first_cycle_success [("1", ⟨"1", "G", []⟩)] [] (by decide)).2.1,
   (groupBaseline_first_cycle_success [("1", ⟨"1", "G", []⟩)] [] (by decide)).2.2.1,
   (groupBaseline_first_cycle_success [("1", ⟨"1", "G", []⟩)] [] (by decide)).2.2.2.1,
   (groupBaseline_first_cycle_success [("1", ⟨"1", "G", []⟩)] [] (by decide)).2.2.2.2.1 "1"⟩

/-- stringSlicesEqual decides exactly list equality. -/
theorem stringSlicesEqual_iff (a b : List String) :
    stringSlicesEqual a b = true ↔ a = b := by
  unfold stringSlicesEqual
  by_cases hlen : a.length = b.length
  · rw [if_neg (by simp [hlen])]
    rw [List.all_eq_true]
    constructor
    · intro hall
      apply List.ext_getElem hlen
      intro i h1 h2
      have hm : (a[i], b[i]) ∈ List.zip a b := by
        have hz : i < (List.zip a b).length := by
          simp [List.length_zip]
          omega
        have := List.getElem_mem hz
        rwa [List.getElem_zip] at this
      exact of_decide_eq_true (hall _ hm)
    · intro heq
      subst heq
      intro p hp
      obtain ⟨i, hi, hp'⟩ := List.getElem_of_mem hp
      rw [← hp', List.getElem_zip]
      simp
  · rw [if_pos (by simpa using hlen)]
    simp only [Bool.false_eq_true, false_iff]
    intro heq
    exact hlen (by rw [heq])

/-- Entries whose key is absent from `curr` are dropped by the pruning
filter of the prior rebuild. -/
theorem mapLookup_pruned_none (prev curr : GroupState) (id : String)
    (h : mapLookup curr id = none) :
    mapLookup (prev.filter fun kv => (mapLookup curr kv.1).isSome) id = none := by
  induction prev with
  | nil => rfl
  | cons kv rest ih =>
    obtain ⟨k, v⟩ := kv
    by_cases hk : k = id
    · subst hk
      simp [List.filter_cons, h, ih]
    · by_cases hs : (mapLookup curr k).isSome
      · simp [List.filter_cons, hs, mapLookup, hk, ih]
      · simp [List.filter_cons, hs, ih]

/-- After the non-baseline rebuild, the prior looks up exactly like the
current observation. -/
theorem replacePrev_lookup (prev curr : GroupState)
    (hc : (curr.map Prod.fst).Nodup) (id : String) :
    mapLookup (replacePrev prev curr) id = mapLookup curr id := by
  simp only [replacePrev]
  rw [mapLookup_foldl_upsert curr hc _ id]
  cases h : mapLookup curr id with
  | some v => rfl
  | none => simp [Option.none_or, mapLookup_pruned_none prev curr id h]

theorem addedRenamedChanges_eq_nil_iff (prev : GroupState)
    (l : List (String × UserGroup)) :
    addedRenamedChanges prev l = [] ↔ ∀ kv ∈ l, groupEntryChanges prev kv.1 kv.2 = [] := by
  induction l with
  | nil => simp [addedRenamedChanges]
  | cons kv rest ih => simp [addedRenamedChanges, ih, List.forall_mem_cons]

theorem removedChanges_eq_nil_iff (curr : GroupState)
    (l : List (String × UserGroup)) :
    removedChanges curr l = [] ↔ ∀ kv ∈ l, (mapLookup curr kv.1).isSome := by
  induction l with
  | nil => simp [removedChanges]
  | cons kv rest ih =>
    by_cases hs : (mapLookup curr kv.1).isSome
    · simp [removedChanges, hs, ih, List.forall_mem_cons]
    · simp [removedChanges, hs, ih, List.forall_mem_cons]

theorem groupEntryChanges_eq_nil_iff (prev : GroupState) (id : String)
    (cur : UserGroup) :
    groupEntryChanges prev id cur = [] ↔
      ∃ p, mapLookup prev id = some p ∧ p.name = cur.name ∧
        stringSlicesEqual p.users cur.users = true := by
  unfold groupEntryChanges
  cases h : mapLookup prev id with
  | none => simp
  | some p =>
    by_cases hn : p.name = cur.name <;>
      by_cases hu : stringSlicesEqual p.users cur.users <;>
        simp [hn, hu]

/-- Well-formedness that getUserGroups guarantees (src/main.go line
509): keys are distinct and every stored group's id field equals its
map key. -/
def WellFormedG (s : GroupState) : Prop :=
  (s.map Prod.fst).Nodup ∧ ∀ kv ∈ s, kv.2.id = kv.1

/-- C5: in every non-baseline group cycle with a successful fetch, if
the diff is empty then nothing is persisted, no alerts are emitted and
the prior is untouched; if it is non-empty then the diff is emitted and
the observation is persisted; and in either case the in-memory prior
afterwards looks up exactly like the current observation — no stale or
partial entries. -/
theorem processUserGroups_steady_mirror (prev current : GroupState)
    (hp : WellFormedG prev) (hc : WellFormedG current) :
    (compareGroupStates prev current = [] →
      processUserGroups (some current) prev false =
        { prev := prev, alerts := [], saved := none, baselineTaken := false }) ∧
    (compareGroupStates prev current ≠ [] →
      (processUserGroups (some current) prev false).alerts =
        compareGroupStates prev current ∧
      (processUserGroups (some current) prev false).saved = some current) ∧
    ∀ id, mapLookup (processUserGroups (some current) prev false).prev id =
      mapLookup current id := by
  by_cases hch : compareGroupStates prev current = []
  · have hout : processUserGroups (some current) prev false =
        { prev := prev, alerts := [], saved := none, baselineTaken := false } := by
      simp [processUserGroups, hch]
    refine ⟨fun _ => hout, fun hne => absurd hch hne, ?_⟩
    have hnil := hch
    unfold compareGroupStates at hnil
    rw [List.append_eq_nil] at hnil
    have h1 := (addedRenamedChanges_eq_nil_iff prev current).mp hnil.1
    have h2 := (removedChanges_eq_nil_iff current prev).mp hnil.2
    intro id
    rw [hout]
    cases hcur : mapLookup current id with
    | some cur =>
      have hmem : (id, cur) ∈ current := mapLookup_mem hcur
      obtain ⟨p, hp', hname, husers⟩ :=
        (groupEntryChanges_eq_nil_iff prev id cur).mp (h1 (id, cur) hmem)
      have hpid : p.id = id := hp.2 _ (mapLookup_mem hp')
      have hcid : cur.id = id := hc.2 _ hmem
      have husers' : p.users = cur.users := (stringSlicesEqual_iff _ _).mp husers
      have hpc : p = cur := by
        cases p
        cases cur
        simp_all
      simpa [hpc] using hp'
    | none =>
      cases hprev : mapLookup prev id with
      | none => rfl
      | some p =>
        have := h2 (id, p) (mapLookup_mem hprev)
        rw [hcur] at this
        simp at this
  · have hout : processUserGroups (some current) prev false =
        { prev := replacePrev prev current
          alerts := compareGroupStates prev current
          saved := some current
          baselineTaken := false } := by
      rcases hcc : compareGroupStates prev current with _ | ⟨c, cs⟩
      · exact absurd hcc hch
      · simp [processUserGroups, hcc]
    refine ⟨fun h => absurd h hch, fun _ => by rw [hout]; exact ⟨rfl, rfl⟩, ?_⟩
    intro id
    rw [hout]
    exact replacePrev_lookup prev current hc.1 id

theorem processUserGroups_steady_mirror_witness :
    mapLookup (processUserGroups
        (some [("5", UserGroup.mk "5" "Admins" ["1", "3"])])
        [("5", UserGroup.mk "5" "Admins" ["1", "2"])] false).prev "5" =
      mapLookup [("5", UserGroup.mk "5" "Admins" ["1", "3"])] "5" :=
  (processUserGroups_steady_mirror
      [("5", UserGroup.mk "5" "Admins" ["1", "2"])]
      [("5", UserGroup.mk "5" "Admins" ["1", "3"])]
      (by constructor
          · decide
          · intro kv hkv
            simp at hkv
            simp [hkv])
      (by constructor
          · decide
          · intro kv hkv
            simp at hkv
            simp [hkv])).2.2 "5"

/-- Order-independent (set) comparison of member lists. -/
def listSetEq (a b : List String) : Bool :=
  (a.all fun x => decide (x ∈ b)) && (b.all fun x => decide (x ∈ a))

theorem listSetEq_iff (a b : List String) :
    listSetEq a b = true ↔ ∀ x, x ∈ a ↔ x ∈ b := by
  simp only [listSetEq, Bool.and_eq_true, List.all_eq_true, decide_eq_true_eq]
  constructor
  · rintro ⟨h1, h2⟩ x
    exact ⟨fun hx => h1 x hx, fun hx => h2 x hx⟩
  · intro h
    exact ⟨fun x hx => (h x).1 hx, fun x hx => (h x).2 hx⟩

/-- On sorted member lists — as produced by getUserGroups
(src/main.go line 508) — the element-wise comparison used by the diff
coincides with order-independent set equality: any member addition,
removal or replacement is detected. -/
theorem sorted_slicesEqual_eq_setEq (a b : List String)
    (ha : List.Pairwise (· < ·) a) (hb : List.Pairwise (· < ·) b) :
    stringSlicesEqual a b = listSetEq a b := by
  rw [Bool.eq_iff_iff, stringSlicesEqual_iff, listSetEq_iff]
  constructor
  · intro h x
    rw [h]
  · intro h
    haveI : IsAntisymm String (· < ·) := ⟨fun _ _ h1 h2 => absurd h2 (lt_asymm h1)⟩
    have hna : a.Nodup := ha.imp fun h' => ne_of_lt h'
    have hnb : b.Nodup := hb.imp fun h' => ne_of_lt h'
    exact List.eq_of_perm_of_sorted ((List.perm_ext_iff_of_nodup hna hnb).mpr h) ha hb

/-- Counting predicate: id present in current, absent in prior. -/
def addedP (prev : GroupState) (kv : String × UserGroup) : Bool :=
  (mapLookup prev kv.1).isNone

/-- Counting predicate: id present in both with a different name. -/
def renamedP (prev : GroupState) (kv : String × UserGroup) : Bool :=
  match mapLookup prev kv.1 with
  | some p => decide (¬p.name = kv.2.name)
  | none => false

/-- Counting predicate: id present in both with a different member
set (order-independent). -/
def membersSetChangedP (prev : GroupState) (kv : String × UserGroup) : Bool :=
  match mapLookup prev kv.1 with
  | some p => !listSetEq p.users kv.2.users
  | none => false

/-- Counting predicate: id present in prior, absent in current. -/
def removedP (curr : GroupState) (kv : String × UserGroup) : Bool :=
  !(mapLookup curr kv.1).isSome

theorem groupEntryChanges_length_sorted (prev : GroupState) (kv : String × UserGroup)
    (hp : ∀ kv' ∈ prev, List.Pairwise (· < ·) kv'.2.users)
    (hcur : List.Pairwise (· < ·) kv.2.users) :
    (groupEntryChanges prev kv.1 kv.2).length =
      (if addedP prev kv then 1 else 0) + (if renamedP prev kv then 1 else 0) +
      (if membersSetChangedP prev kv then 1 else 0) := by
  unfold groupEntryChanges addedP renamedP membersSetChangedP
  cases h : mapLookup prev kv.1 with
  | none => simp
  | some p =>
    have hsorted := hp (kv.1, p) (mapLookup_mem h)
    have hbridge := sorted_slicesEqual_eq_setEq p.users kv.2.users hsorted hcur
    by_cases hn : p.name = kv.2.name <;>
      by_cases hu : stringSlicesEqual p.users kv.2.users <;>
        simp [hn, hu, ← hbridge]

theorem addedRenamedChanges_length (prev : GroupState)
    (curr : List (String × UserGroup))
    (hp : ∀ kv ∈ prev, List.Pairwise (· < ·) kv.2.users)
    (hc : ∀ kv ∈ curr, List.Pairwise (· < ·) kv.2.users) :
    (addedRenamedChanges prev curr).length =
      curr.countP (addedP prev) + curr.countP (renamedP prev) +
      curr.countP (membersSetChangedP prev) := by
  induction curr with
  | nil => simp [addedRenamedChanges]
  | cons kv rest ih =>
    simp only [addedRenamedChanges, List.length_append]
    rw [groupEntryChanges_length_sorted prev kv hp (hc kv (List.mem_cons_self _ _)),
      ih fun kv' h' => hc kv' (List.mem_cons_of_mem _ h')]
    simp only [List.countP_cons]
    by_cases h1 : addedP prev kv <;> by_cases h2 : renamedP prev kv <;>
      by_cases h3 : membersSetChangedP prev kv <;> simp [h1, h2, h3] <;> omega

theorem removedChanges_length (curr : GroupState) (l : List (String × UserGroup)) :
    (removedChanges curr l).length = l.countP (removedP curr) := by
  induction l with
  | nil => simp [removedChanges]
  | cons kv rest ih =>
    by_cases hs : (mapLookup curr kv.1).isSome <;>
      simp [removedChanges, hs, ih, List.countP_cons, removedP]

/-- C4: over member lists kept sorted (as getUserGroups does), the
structural diff yields exactly one change description per detected
change: one per id added, one per id removed, one per shared id whose
name differs, and one per shared id whose member SET differs
(order-independently) — so its length is exactly the sum of the four
category counts. -/
theorem compareGroupStates_change_counts (prev curr : GroupState)
    (hp : ∀ kv ∈ prev, List.Pairwise (· < ·) kv.2.users)
    (hc : ∀ kv ∈ curr, List.Pairwise (· < ·) kv.2.users) :
    (compareGroupStates prev curr).length =
      curr.countP (addedP prev) + prev.countP (removedP curr) +
      curr.countP (renamedP prev) + curr.countP (membersSetChangedP prev) := by
  unfold compareGroupStates
  rw [List.length_append, addedRenamedChanges_length prev curr hp hc,
    removedChanges_length]
  omega

theorem compareGroupStates_change_counts_witness :
    (compareGroupStates
        [("2", UserGroup.mk "2" "Beta" ["x"]), ("3", UserGroup.mk "3" "Gamma" ["y"]),
         ("4", UserGroup.mk "4" "Mu" ["a", "b"])]
        [("1", UserGroup.mk "1" "Alpha" ["u"]), ("3", UserGroup.mk "3" "Delta" ["y"]),
         ("4", UserGroup.mk "4" "Mu" ["a", "c"])]).length = 4 ∧
    compareGroupStates
        [("2", UserGroup.mk "2" "Beta" ["x"]), ("3", UserGroup.mk "3" "Gamma" ["y"]),
         ("4", UserGroup.mk "4" "Mu" ["a", "b"])]
        [("1", UserGroup.mk "1" "Alpha" ["u"]), ("3", UserGroup.mk "3" "Delta" ["y"]),
         ("4", UserGroup.mk "4" "Mu" ["a", "c"])] =
      [.added "Alpha", .renamed "Gamma" "Delta", .membersChanged "Mu", .removed "Beta"] := by
  constructor
  · rw [compareGroupStates_change_counts
      [("2", UserGroup.mk "2" "Beta" ["x"]), ("3", UserGroup.mk "3" "Gamma" ["y"]),
       ("4", UserGroup.mk "4" "Mu" ["a", "b"])]
      [("1", UserGroup.mk "1" "Alpha" ["u"]), ("3", UserGroup.mk "3" "Delta" ["y"]),
       ("4", UserGroup.mk "4" "Mu" ["a", "c"])]
      (by intro kv hkv
          simp only [List.mem_cons, List.not_mem_nil, or_false] at hkv
          rcases hkv with h | h | h <;> subst h <;> simp [List.pairwise_cons] <;> decide)
      (by intro kv hkv
          simp only [List.mem_cons, List.not_mem_nil, or_false] at hkv
          rcases hkv with h | h | h <;> subst h <;> simp [List.pairwise_cons] <;> decide)]
    decide
  · decide
